import Mathlib

/-!
Verification of `networking_opencontrail/drivers/contrail_driver_base.py`.

The Python driver base class is shallowly embedded: each dict is a Lean
structure (an `Option` field models a possibly-absent key), in-place list
mutation becomes explicit state passing, and raised Python exceptions become
`Except` error values.  Dynamic dispatch to subclass hooks
(`_create_resource`, `_update_resource`, `_count_resource`, ...) is modelled
by parametrising the embedded method over the hook function.
-/

namespace ContrailDriverBase

/-- One entry of a port's `fixed_ips` list.  In the Python source this is a
dict; `ip_address = none` models a dict without the `'ip_address'` key.
`subnet_id` stands for the remaining keys of the entry, so that two entries
with the same address can still be distinguished. -/
structure FixedIp where
  ip_address : Option String
  subnet_id : Option String
deriving DecidableEq, Repr

/-- Python exceptions that `_update_ips_for_port` (and the list operations it
uses) can raise. `invalidInput` is the structured `InvalidInput` Neutron
exception; `valueError` is the bare `ValueError` raised by `list.remove` when
the element is absent; `keyError` is the `KeyError` from indexing a dict with
a missing key. -/
inductive DiffError where
  | invalidInput (error_message : String)
  | valueError
  | keyError
deriving DecidableEq, Repr

/-- Python `list.remove(a)`: removes the first element structurally equal to
`a`, raising `ValueError` when no element matches. -/
def pyRemove (xs : List FixedIp) (a : FixedIp) : Except DiffError (List FixedIp) :=
  match xs with
  | [] => .error .valueError
  | x :: rest =>
    if x = a then .ok rest
    else (pyRemove rest a).map (fun ys => x :: ys)

/-- The match test of the inner loop of `_update_ips_for_port`:
`'ip_address' in new_ip and original_ip['ip_address'] == new_ip['ip_address']`.
If the new entry lacks the key the conjunction short-circuits to `False`;
otherwise indexing the original entry raises `KeyError` when its key is
absent. -/
def ipMatch (original_ip new_ip : FixedIp) : Except DiffError Bool :=
  match new_ip.ip_address with
  | none => .ok false
  | some a =>
    match original_ip.ip_address with
    | none => .error .keyError
    | some b => .ok (b = a)

/-- Inner loop of `_update_ips_for_port`: `for new_ip in new_ips[:]`, run for
a fixed `original_ip`.  The first list argument is the snapshot `new_ips[:]`
being iterated; `origs`, `news`, `prevs` are the current (mutable in Python)
states of `original_ips`, `new_ips` and `prev_ips`. -/
def innerLoop (original_ip : FixedIp) :
    List FixedIp → List FixedIp → List FixedIp → List FixedIp →
    Except DiffError (List FixedIp × List FixedIp × List FixedIp)
  | [], origs, news, prevs => .ok (origs, news, prevs)
  | new_ip :: snap, origs, news, prevs =>
    match ipMatch original_ip new_ip with
    | .error e => .error e
    | .ok false => innerLoop original_ip snap origs news prevs
    | .ok true =>
      match pyRemove origs original_ip with
      | .error e => .error e
      | .ok origs' =>
        match pyRemove news new_ip with
        | .error e => .error e
        | .ok news' =>
          innerLoop original_ip snap origs' news' (prevs ++ [original_ip])

/-- Outer loop of `_update_ips_for_port`: `for original_ip in original_ips[:]`.
The first argument is the snapshot `original_ips[:]`; the inner loop's
snapshot `new_ips[:]` is taken afresh from the current `news` state at each
outer iteration, exactly as in the source. -/
def outerLoop :
    List FixedIp → List FixedIp → List FixedIp → List FixedIp →
    Except DiffError (List FixedIp × List FixedIp × List FixedIp)
  | [], origs, news, prevs => .ok (origs, news, prevs)
  | original_ip :: snap, origs, news, prevs =>
    match innerLoop original_ip news origs news prevs with
    | .error e => .error e
    | .ok (origs', news', prevs') => outerLoop snap origs' news' prevs'

/-- Embeds `OpenContrailDriversBase._update_ips_for_port`.  Returns
`(new_ips, prev_ips, original_ips)`: the Python method returns the pair
`(new_ips, prev_ips)`; the third component is the final state of the
`original_ips` list, which the method mutates in place. -/
def update_ips_for_port (max_fixed_ips_per_port : Nat)
    (original_ips new_ips : List FixedIp) :
    Except DiffError (List FixedIp × List FixedIp × List FixedIp) :=
  if new_ips.length > max_fixed_ips_per_port then
    .error (.invalidInput "Exceeded maximim amount of fixed ips per port")
  else
    match outerLoop original_ips original_ips new_ips [] with
    | .error e => .error e
    | .ok (origs', news', prevs') => .ok (news', prevs', origs')

/-- The fetched original port record.  `other` stands for all remaining port
attributes, untouched by `update_port`. -/
structure Port where
  network_id : String
  fixed_ips : List FixedIp
  binding_host_id : Option String
  other : Nat
deriving DecidableEq, Repr

/-- The update payload `port['port']`.  `fixed_ips = none` and
`binding_host_id = none` model those keys being absent from the payload;
`other` stands for all remaining payload keys. -/
structure PortPayload where
  fixed_ips : Option (List FixedIp)
  binding_host_id : Option String
  other : Nat
deriving DecidableEq, Repr

/-- Embeds `OpenContrailDriversBase.update_port`.  Returns the payload dispatched to
`self._update_resource('port', ...)` together with the final state of the
in-memory `original` record (mutated via `original['fixed_ips']` and the
`original['binding:host_id']` merge); the merged original itself is never
passed to the backend update call. -/
def update_port (max_fixed_ips_per_port : Nat) (original : Port)
    (port : PortPayload) : Except DiffError (PortPayload × Port) :=
  let afterIps : Except DiffError (PortPayload × Port) :=
    match port.fixed_ips with
    | some new_ips =>
      match update_ips_for_port max_fixed_ips_per_port
          original.fixed_ips new_ips with
      | .error e => .error e
      | .ok (added_ips, prev_ips, origs') =>
        .ok ({ port with fixed_ips := some (prev_ips ++ added_ips) },
             { original with fixed_ips := origs' })
    | none => .ok (port, original)
  match afterIps with
  | .error e => .error e
  | .ok (port', original') =>
    match port'.binding_host_id with
    | some h => .ok (port', { original' with binding_host_id := some h })
    | none => .ok (port', original')

/-- The `host_routes` attribute of a subnet creation request.
`notSpecified` is the `ATTR_NOT_SPECIFIED` sentinel; `specified rs` is an
explicit list of host routes (each route abstracted to a string). -/
inductive HostRoutes where
  | notSpecified
  | specified (routes : List String)
deriving DecidableEq, Repr

/-- The `subnet['subnet']` dict of a subnet creation request.
`id = none` models the `'id'` key being absent (`subnet['subnet'].get('id', ...)`
then falls back to the default); `gateway_ip = none` is Python `None`;
`other` stands for all remaining subnet attributes. -/
structure Subnet where
  id : Option String
  gateway_ip : Option String
  ip_version : Nat
  host_routes : HostRoutes
  other : Nat
deriving DecidableEq, Repr

/-- The exception raised by `create_subnet`:
`neutron_exc.HostRoutesExhausted(subnet_id=..., quota=...)`. -/
inductive SubnetError where
  | hostRoutesExhausted (subnet_id : String) (quota : Nat)
deriving DecidableEq, Repr

/-- Embeds `OpenContrailDriversBase.create_subnet`, parametrised over the backend
hook `self._create_resource('subnet', ...)` (overridden in subclasses; this
layer's `_make_subnet_dict` is the identity).  The hook receives the
`subnet['subnet']` dict as mutated by the gateway defaulting. -/
def create_subnet {α : Type} (max_subnet_host_routes : Nat)
    (create_resource : Subnet → α) (subnet : Subnet) : Except SubnetError α :=
  let subnet :=
    match subnet.gateway_ip with
    | none =>
      let gateway := if subnet.ip_version = 6 then "::" else "0.0.0.0"
      { subnet with gateway_ip := some gateway }
    | some _ => subnet
  match subnet.host_routes with
  | .notSpecified =>
    .ok (create_resource subnet)
  | .specified routes =>
    if routes.length > max_subnet_host_routes then
      .error (.hostRoutesExhausted (subnet.id.getD "new subnet")
        max_subnet_host_routes)
    else
      .ok (create_resource subnet)

/-- One entry of the `contrail_extensions` config dict:
`contrail_extensions=ipam:<classpath>,policy:<classpath>`. -/
structure ExtEntry where
  ext_name : String
  ext_class : String
deriving DecidableEq, Repr

/-- The exception raised by `_parse_class_args`:
`InvalidContrailExtensionError(ext_name=..., ext_class=...)`. -/
inductive ExtError where
  | invalidContrailExtension (ext_name : String) (ext_class : String)
deriving DecidableEq, Repr

/-- One iteration of the `for ext_name, ext_class in contrail_extensions.items()`
loop of `_parse_class_args`.  `loadFails e` abstracts the `try` block's four
failure points (class import, instantiation, `set_core`, method binding)
throwing for entry `e`; a falsy or `'None'` class reference skips loading and
registers the name directly.  Returns the new `supported_extension_aliases`
state or the raised error. -/
def parseClassArgsStep (loadFails : ExtEntry → Bool) (aliases : List String)
    (e : ExtEntry) : Except ExtError (List String) :=
  if e.ext_class = "" ∨ e.ext_class = "None" then
    .ok (aliases ++ [e.ext_name])
  else if loadFails e then
    .error (.invalidContrailExtension e.ext_name e.ext_class)
  else
    .ok (aliases ++ [e.ext_name])

/-- Embeds `OpenContrailDriversBase._parse_class_args`: the loop over the extension
entries.  `supported_extension_aliases` is mutated in place, so the final
state of the list is returned alongside the raised error (if any): on error
the names appended by earlier iterations remain. -/
def parse_class_args (loadFails : ExtEntry → Bool) :
    List ExtEntry → List String → List String × Option ExtError
  | [], aliases => (aliases, none)
  | e :: rest, aliases =>
    match parseClassArgsStep loadFails aliases e with
    | .error err => (aliases, some err)
    | .ok aliases' => parse_class_args loadFails rest aliases'

/-- The error-descriptor dict `info` handed to `_raise_contrail_error`.
`exception = none` models the `'exception'` key being absent (`info.get`
returns `None`); `resource = none` models `'resource' not in info`;
`other` stands for the remaining keys. -/
structure ErrorInfo where
  exception : Option String
  resource : Option String
  other : Nat
deriving DecidableEq, Repr

/-- The exception raised by `_raise_contrail_error`: a dedicated
`HttpResponseError` carrying the raw descriptor as `response_info`, a
domain exception looked up by name in one of the known exception namespaces
(`neutron_exc`, `l3`, `securitygroup`, `allowedaddresspairs`,
`neutron_lib_exc`), or the fallback `NeutronException`. -/
inductive RaisedError where
  | httpResponse (response_info : ErrorInfo)
  | domain (namespaceName : String) (exc_name : String) (info : ErrorInfo)
  | neutronException (info : ErrorInfo)
deriving DecidableEq, Repr

/-- Embeds `_raise_contrail_error`, parametrised over the `hasattr` tests of the
five exception namespaces (their contents are runtime Python modules).
`hasLib` models `neutron_lib_exc` being importable (non-`None`). -/
def raise_contrail_error (neutronExcHas l3Has sgHas aapHas libHas : String → Bool)
    (hasLib : Bool) (info : ErrorInfo) (obj_name : String) : RaisedError :=
  match info.exception with
  | some exc_name =>
    let info :=
      if exc_name = "BadRequest" ∧ info.resource = none then
        { info with resource := some obj_name }
      else info
    if exc_name = "VirtualRouterNotFound" then
      .httpResponse info
    else if neutronExcHas exc_name then
      .domain "neutron_exc" exc_name info
    else if l3Has exc_name then
      .domain "l3" exc_name info
    else if sgHas exc_name then
      .domain "securitygroup" exc_name info
    else if aapHas exc_name then
      .domain "allowedaddresspairs" exc_name info
    else if hasLib ∧ libHas exc_name then
      .domain "neutron_lib_exc" exc_name info
    else
      .neutronException info
  | none => .neutronException info

/-- The binding-field projection inside `_make_port_dict` (the
`if not fields: ... else: ...` block).  A port dict is modelled as a total
map from keys to optional values (`none` = key absent); the base-binding
dict `self.base_binding_dict` as an association list with distinct keys;
`fields = none` models `fields=None` (like `some []`, falsy in Python). -/
def bindingProjection {α : Type} (base_binding_dict : List (String × α))
    (port : String → Option α) (fields : Option (List String)) :
    String → Option α :=
  match fields with
  | none => fun k =>
    match base_binding_dict.lookup k with
    | some v => some v
    | none => port k
  | some [] => fun k =>
    match base_binding_dict.lookup k with
    | some v => some v
    | none => port k
  | some fs => fun k =>
    if k ∈ fs then
      match base_binding_dict.lookup k with
      | some v => some v
      | none => port k
    else port k

/-- Embeds `OpenContrailDriversBase._make_port_dict`.  The vhost-user test reads the
port's `binding:vif_type` before the projection; `update_vhostuser_cfg` is the
hook `self._update_vhostuser_cfg_for_port` (defined outside this module),
applied only when the port's vif type is `vhostuser`. -/
def make_port_dict {α : Type} (vif_type_key : String) (vhost_user_value : α)
    [DecidableEq α] (base_binding_dict : List (String × α))
    (update_vhostuser_cfg : (String → Option α) → String → Option α)
    (port : String → Option α) (fields : Option (List String)) :
    String → Option α :=
  let vhostuser := port vif_type_key = some vhost_user_value
  let port := bindingProjection base_binding_dict port fields
  if vhostuser then update_vhostuser_cfg port else port

/-- Embeds `OpenContrailDriversBase.get_security_groups_count`: hardwired `return 0`;
the backend hook `self._count_resource` is parametrised to show it is never
consulted. -/
def get_security_groups_count {Ctx Filters : Type}
    (count_resource : String → Ctx → Option Filters → Nat)
    (context : Ctx) (filters : Option Filters) : Nat :=
  0

/-- Embeds `OpenContrailDriversBase.get_security_group_rules_count`: hardwired
`return 0`. -/
def get_security_group_rules_count {Ctx Filters : Type}
    (count_resource : String → Ctx → Option Filters → Nat)
    (context : Ctx) (filters : Option Filters) : Nat :=
  0

/-! ## Theorems -/

/-- C2: a subnet creation whose `host_routes` is explicitly specified and
longer than the configured `max_subnet_host_routes` fails with
`HostRoutesExhausted` carrying the subnet id (defaulting to `"new subnet"`)
and the quota; this holds for every backend hook, so the backend create hook
is never invoked. -/
theorem create_subnet_host_routes_exhausted {α : Type}
    (max_subnet_host_routes : Nat) (create_resource : Subnet → α) (s : Subnet)
    (rs : List String) (hr : s.host_routes = .specified rs)
    (hlen : rs.length > max_subnet_host_routes) :
    create_subnet max_subnet_host_routes create_resource s =
      .error (.hostRoutesExhausted (s.id.getD "new subnet")
        max_subnet_host_routes) := by
  unfold create_subnet
  cases hg : s.gateway_ip <;> simp [hg, hr, hlen]

/-- Witness for C2 at a concrete over-quota subnet. -/
theorem create_subnet_host_routes_exhausted_witness :
    create_subnet (α := Subnet) 1 id
        ⟨some "sub-1", some "10.0.0.1", 4, .specified ["r1", "r2"], 0⟩ =
      .error (.hostRoutesExhausted "sub-1" 1) :=
  create_subnet_host_routes_exhausted 1 id
    ⟨some "sub-1", some "10.0.0.1", 4, .specified ["r1", "r2"], 0⟩
    ["r1", "r2"] rfl (by decide)

/-- C4: when `gateway_ip` is unset (`None`), the subnet passed to the backend
create hook carries gateway `0.0.0.0` for `ip_version == 4` and `::` for
`ip_version == 6`; a non-`None` gateway is passed through unchanged. -/
theorem create_subnet_gateway_default {α : Type}
    (max_subnet_host_routes : Nat) (create_resource : Subnet → α) (s : Subnet)
    (hroutes : ∀ rs, s.host_routes = .specified rs →
      rs.length ≤ max_subnet_host_routes) :
    (s.gateway_ip = none → s.ip_version = 4 →
      create_subnet max_subnet_host_routes create_resource s =
        .ok (create_resource { s with gateway_ip := some "0.0.0.0" })) ∧
    (s.gateway_ip = none → s.ip_version = 6 →
      create_subnet max_subnet_host_routes create_resource s =
        .ok (create_resource { s with gateway_ip := some "::" })) ∧
    (∀ g, s.gateway_ip = some g →
      create_subnet max_subnet_host_routes create_resource s =
        .ok (create_resource s)) := by
  refine ⟨fun hg hv => ?_, fun hg hv => ?_, fun g hg => ?_⟩ <;>
    unfold create_subnet <;>
    cases hs : s.host_routes <;>
    simp_all

/-- Witness for C4: all three cases at concrete subnets. -/
theorem create_subnet_gateway_default_witness :
    create_subnet (α := Subnet) 3 id ⟨some "s4", none, 4, .notSpecified, 0⟩ =
      .ok ⟨some "s4", some "0.0.0.0", 4, .notSpecified, 0⟩ ∧
    create_subnet (α := Subnet) 3 id ⟨some "s6", none, 6, .notSpecified, 0⟩ =
      .ok ⟨some "s6", some "::", 6, .notSpecified, 0⟩ ∧
    create_subnet (α := Subnet) 3 id ⟨some "s", some "10.0.0.9", 4,
        .notSpecified, 0⟩ =
      .ok ⟨some "s", some "10.0.0.9", 4, .notSpecified, 0⟩ :=
  ⟨(create_subnet_gateway_default 3 id _ (by intro rs h; cases h)).1 rfl rfl,
   (create_subnet_gateway_default 3 id _ (by intro rs h; cases h)).2.1 rfl rfl,
   (create_subnet_gateway_default 3 id _
      (by intro rs h; cases h)).2.2 "10.0.0.9" rfl⟩

/-- C6: a descriptor whose `exception` is `"VirtualRouterNotFound"` is turned
into `HttpResponseError` carrying the raw descriptor, for every possible
content of the exception namespaces — so no namespace lookup influences the
outcome and no domain or generic error is raised. -/
theorem raise_contrail_error_virtual_router
    (neutronExcHas l3Has sgHas aapHas libHas : String → Bool) (hasLib : Bool)
    (info : ErrorInfo) (obj_name : String)
    (h : info.exception = some "VirtualRouterNotFound") :
    raise_contrail_error neutronExcHas l3Has sgHas aapHas libHas hasLib
        info obj_name = .httpResponse info := by
  unfold raise_contrail_error
  rw [h]
  simp

/-- Witness for C6 at a concrete descriptor, with namespaces that do contain
the name (showing the lookup is still bypassed). -/
theorem raise_contrail_error_virtual_router_witness :
    raise_contrail_error (fun _ => true) (fun _ => true) (fun _ => true)
        (fun _ => true) (fun _ => true) true ⟨some "VirtualRouterNotFound",
        none, 7⟩ "router" =
      .httpResponse ⟨some "VirtualRouterNotFound", none, 7⟩ :=
  raise_contrail_error_virtual_router (fun _ => true) (fun _ => true)
    (fun _ => true) (fun _ => true) (fun _ => true) true
    ⟨some "VirtualRouterNotFound", none, 7⟩ "router" rfl

/-- C8: whenever the new fixed-IP list is strictly longer than the configured
`max_fixed_ips_per_port`, the diff fails with `InvalidInput`, for every
original list (hence regardless of overlap) and before any element is
examined. -/
theorem update_ips_max_fixed_invalid_input (max_fixed_ips_per_port : Nat)
    (original_ips new_ips : List FixedIp)
    (h : new_ips.length > max_fixed_ips_per_port) :
    update_ips_for_port max_fixed_ips_per_port original_ips new_ips =
      .error (.invalidInput
        "Exceeded maximim amount of fixed ips per port") := by
  unfold update_ips_for_port
  simp [h]

/-- Witness for C8 at a concrete over-limit update whose new IPs all overlap
with the originals. -/
theorem update_ips_max_fixed_invalid_input_witness :
    update_ips_for_port 1
        [⟨some "10.0.0.1", none⟩, ⟨some "10.0.0.2", none⟩]
        [⟨some "10.0.0.1", none⟩, ⟨some "10.0.0.2", none⟩] =
      .error (.invalidInput
        "Exceeded maximim amount of fixed ips per port") :=
  update_ips_max_fixed_invalid_input 1
    [⟨some "10.0.0.1", none⟩, ⟨some "10.0.0.2", none⟩]
    [⟨some "10.0.0.1", none⟩, ⟨some "10.0.0.2", none⟩] (by decide)

/-- C9: both security-group count operations return 0 for every context,
every filter argument (including `None`) and every backend count hook — the
hook is never invoked. -/
theorem security_group_counts_zero {Ctx Filters : Type}
    (count_resource : String → Ctx → Option Filters → Nat)
    (context : Ctx) (filters : Option Filters) :
    get_security_groups_count count_resource context filters = 0 ∧
    get_security_group_rules_count count_resource context filters = 0 :=
  ⟨rfl, rfl⟩

/-- A successful `parseClassArgsStep` appends exactly the entry's name to the
alias list. -/
theorem parseClassArgsStep_ok (loadFails : ExtEntry → Bool)
    (aliases : List String) (e : ExtEntry) (a : List String)
    (h : parseClassArgsStep loadFails aliases e = .ok a) :
    a = aliases ++ [e.ext_name] := by
  unfold parseClassArgsStep at h
  split at h
  · exact (Except.ok.injEq _ _).mp h |>.symm
  · split at h
    · cases h
    · exact (Except.ok.injEq _ _).mp h |>.symm

/-- If some entry of the extension list fails to load, the loop ends with an
error and never registers that entry's name. -/
theorem parse_class_args_aux (loadFails : ExtEntry → Bool) (e : ExtEntry)
    (hclass : ¬(e.ext_class = "" ∨ e.ext_class = "None"))
    (hfail : loadFails e = true) :
    ∀ (exts : List ExtEntry) (init : List String), e ∈ exts →
      e.ext_name ∉ init → (exts.map ExtEntry.ext_name).Nodup →
      (parse_class_args loadFails exts init).2.isSome = true ∧
        e.ext_name ∉ (parse_class_args loadFails exts init).1 := by
  intro exts
  induction exts with
  | nil => intro init hmem _ _; cases hmem
  | cons e' rest ih =>
    intro init hmem hinit hnodup
    rcases List.mem_cons.mp hmem with he | hrest
    · subst he
      have hstep : parseClassArgsStep loadFails init e =
          .error (.invalidContrailExtension e.ext_name e.ext_class) := by
        unfold parseClassArgsStep
        simp [hclass, hfail]
      unfold parse_class_args
      rw [hstep]
      exact ⟨rfl, hinit⟩
    · cases hstep : parseClassArgsStep loadFails init e' with
      | error err =>
        unfold parse_class_args
        rw [hstep]
        exact ⟨rfl, hinit⟩
      | ok aliases' =>
        have hne : e.ext_name ≠ e'.ext_name := by
          intro hcontra
          have : e'.ext_name ∈ rest.map ExtEntry.ext_name :=
            hcontra ▸ List.mem_map_of_mem ExtEntry.ext_name hrest
          exact (List.nodup_cons.mp hnodup).1 this
        have ha : aliases' = init ++ [e'.ext_name] :=
          parseClassArgsStep_ok loadFails init e' aliases' hstep
        have hinit' : e.ext_name ∉ aliases' := by
          subst ha
          intro hmem'
          rcases List.mem_append.mp hmem' with h1 | h2
          · exact hinit h1
          · exact hne (List.mem_singleton.mp h2)
        unfold parse_class_args
        rw [hstep]
        exact ih aliases' hrest hinit' (List.nodup_cons.mp hnodup).2

/-- C5: an extension entry with a real class reference whose loading throws
makes `_parse_class_args` raise `InvalidContrailExtensionError` carrying the
entry's name and class reference at its own step, the loop over the distinct
extension names ends with an error (driver construction aborts), and that
entry's name is absent from the final supported-extension list. -/
theorem parse_class_args_failure (loadFails : ExtEntry → Bool)
    (exts : List ExtEntry) (init : List String) (e : ExtEntry)
    (hmem : e ∈ exts)
    (hclass : ¬(e.ext_class = "" ∨ e.ext_class = "None"))
    (hfail : loadFails e = true)
    (hinit : e.ext_name ∉ init)
    (hnodup : (exts.map ExtEntry.ext_name).Nodup) :
    parseClassArgsStep loadFails init e =
      .error (.invalidContrailExtension e.ext_name e.ext_class) ∧
    (parse_class_args loadFails exts init).2.isSome = true ∧
    e.ext_name ∉ (parse_class_args loadFails exts init).1 := by
  have haux := parse_class_args_aux loadFails e hclass hfail exts init
    hmem hinit hnodup
  refine ⟨?_, haux.1, haux.2⟩
  unfold parseClassArgsStep
  simp [hclass, hfail]

/-- Witness for C5: a two-entry config whose second entry fails to load. -/
theorem parse_class_args_failure_witness :
    parseClassArgsStep (fun e => e.ext_name = "policy") []
        ⟨"policy", "bad.path.Cls"⟩ =
      .error (.invalidContrailExtension "policy" "bad.path.Cls") ∧
    (parse_class_args (fun e => e.ext_name = "policy")
        [⟨"ipam", "None"⟩, ⟨"policy", "bad.path.Cls"⟩] []).2.isSome = true ∧
    "policy" ∉ (parse_class_args (fun e => e.ext_name = "policy")
        [⟨"ipam", "None"⟩, ⟨"policy", "bad.path.Cls"⟩] []).1 :=
  parse_class_args_failure (fun e => e.ext_name = "policy")
    [⟨"ipam", "None"⟩, ⟨"policy", "bad.path.Cls"⟩] []
    ⟨"policy", "bad.path.Cls"⟩ (by decide) (by decide) (by decide)
    (by decide) (by decide)

/-- C7: with a non-empty field list, the binding projection overwrites
`port[key]` with the base-binding value exactly at base-binding keys that
appear in the field list and leaves every other key unchanged; with `None`
or an empty field list, every base-binding key is merged in, overwriting
prior values; and `_make_port_dict` is exactly this projection whenever the
port is not a vhost-user port. -/
theorem bindingProjection_spec {α : Type} [DecidableEq α]
    (base_binding_dict : List (String × α)) (port : String → Option α) :
    (∀ fs, fs ≠ [] → ∀ k,
      bindingProjection base_binding_dict port (some fs) k =
        if k ∈ fs then
          match base_binding_dict.lookup k with
          | some v => some v
          | none => port k
        else port k) ∧
    (∀ k, bindingProjection base_binding_dict port none k =
      match base_binding_dict.lookup k with
      | some v => some v
      | none => port k) ∧
    (∀ k, bindingProjection base_binding_dict port (some []) k =
      match base_binding_dict.lookup k with
      | some v => some v
      | none => port k) ∧
    (∀ (vif_type_key : String) (vhost_user_value : α) update_vhostuser_cfg
        fields, port vif_type_key ≠ some vhost_user_value →
      make_port_dict vif_type_key vhost_user_value base_binding_dict
          update_vhostuser_cfg port fields =
        bindingProjection base_binding_dict port fields) := by
  refine ⟨fun fs hfs k => ?_, fun k => rfl, fun k => rfl,
    fun vk vv cfg fields hvif => ?_⟩
  · cases fs with
    | nil => exact absurd rfl hfs
    | cons f fr => rfl
  · unfold make_port_dict
    simp [hvif]

/-- Witness for C7 at a concrete port, base-binding dict and field list. -/
theorem bindingProjection_spec_witness :
    bindingProjection [("binding:vif_type", "vrouter"), ("binding:vif_details", "d")]
        (fun k => if k = "status" then some "ACTIVE" else none)
        (some ["binding:vif_type"]) "binding:vif_type" =
      (if "binding:vif_type" ∈ ["binding:vif_type"] then
        match ([("binding:vif_type", "vrouter"),
            ("binding:vif_details", "d")]).lookup "binding:vif_type" with
        | some v => some v
        | none => (fun k : String =>
            if k = "status" then some "ACTIVE" else none) "binding:vif_type"
      else (fun k : String =>
        if k = "status" then some "ACTIVE" else none) "binding:vif_type") :=
  (bindingProjection_spec
      [("binding:vif_type", "vrouter"), ("binding:vif_details", "d")]
      (fun k => if k = "status" then some "ACTIVE" else none)).1
    ["binding:vif_type"] (by decide) "binding:vif_type"

/-- C3: when the payload carries `binding:host_id`, `update_port` merges the
value only into the in-memory original record; the payload dispatched to the
backend update hook is the input payload with at most its `fixed_ips`
rewritten (its host id and remaining keys unchanged), and when the payload
has no `fixed_ips` it is dispatched exactly as given. -/
theorem update_port_host_id_merge_frame (max_fixed_ips_per_port : Nat)
    (original : Port) (port : PortPayload) (h : String)
    (hh : port.binding_host_id = some h) (p' : PortPayload) (o' : Port)
    (hok : update_port max_fixed_ips_per_port original port = .ok (p', o')) :
    o'.binding_host_id = some h ∧
    p'.binding_host_id = some h ∧
    p'.other = port.other ∧
    (∃ f, p' = { port with fixed_ips := f }) ∧
    (∃ ips, o' = { original with
      binding_host_id := some h
      fixed_ips := ips }) ∧
    (port.fixed_ips = none → p' = port ∧
      o' = { original with binding_host_id := some h }) := by
  cases hf : port.fixed_ips with
  | none =>
    simp only [update_port, hf, hh, Except.ok.injEq, Prod.mk.injEq] at hok
    obtain ⟨hp, ho⟩ := hok
    subst hp
    subst ho
    exact ⟨rfl, hh, rfl, ⟨port.fixed_ips, rfl⟩, ⟨original.fixed_ips, rfl⟩,
      fun _ => ⟨rfl, rfl⟩⟩
  | some new_ips =>
    simp only [update_port, hf] at hok
    cases hu : update_ips_for_port max_fixed_ips_per_port
        original.fixed_ips new_ips with
    | error e => simp [hu] at hok
    | ok res =>
      obtain ⟨added_ips, prev_ips, origs'⟩ := res
      simp only [hu, hh, Except.ok.injEq, Prod.mk.injEq] at hok
      obtain ⟨hp, ho⟩ := hok
      subst hp
      subst ho
      refine ⟨rfl, rfl, rfl, ⟨some (prev_ips ++ added_ips), by rw [hh]⟩,
        ⟨origs', rfl⟩, fun hcontra => by cases hcontra⟩

/-- Witness for C3 at a concrete update carrying both `fixed_ips` and
`binding:host_id`. -/
theorem update_port_host_id_merge_frame_witness :
    (⟨"net1", [⟨some "10.0.0.1", none⟩], some "host-7", 5⟩ :
        Port).binding_host_id = some "host-7" ∧
    (⟨some [⟨some "10.0.0.2", none⟩], some "host-7", 9⟩ :
        PortPayload).binding_host_id = some "host-7" :=
  (fun hc => ⟨hc.1, hc.2.1⟩)
    (update_port_host_id_merge_frame 4
      ⟨"net1", [⟨some "10.0.0.1", none⟩], none, 5⟩
      ⟨some [⟨some "10.0.0.2", none⟩], some "host-7", 9⟩ "host-7" rfl
      ⟨some [⟨some "10.0.0.2", none⟩], some "host-7", 9⟩
      ⟨"net1", [⟨some "10.0.0.1", none⟩], some "host-7", 5⟩ rfl)

/-- Python `list.remove` on a list containing the element returns the list with its
first occurrence erased. -/
theorem pyRemove_eq_erase : ∀ (xs : List FixedIp) (a : FixedIp), a ∈ xs →
    pyRemove xs a = .ok (xs.erase a) := by
  intro xs
  induction xs with
  | nil => intro a h; cases h
  | cons x rest ih =>
    intro a h
    by_cases hx : x = a
    · subst hx
      simp [pyRemove, List.erase_cons_head]
    · have hmem : a ∈ rest := by
        rcases List.mem_cons.mp h with h1 | h2
        · exact absurd h1.symm hx
        · exact h2
      rw [List.erase_cons_tail (by simpa using hx)]
      unfold pyRemove
      rw [if_neg hx, ih a hmem]
      rfl

/-- Python `list.remove` erases the marked occurrence when no earlier element is
structurally equal to it. -/
theorem pyRemove_middle : ∀ (l1 : List FixedIp) (l2 : List FixedIp)
    (n : FixedIp), (∀ x ∈ l1, x ≠ n) →
    pyRemove (l1 ++ n :: l2) n = .ok (l1 ++ l2) := by
  intro l1
  induction l1 with
  | nil => intro l2 n _; simp [pyRemove]
  | cons x l1 ih =>
    intro l2 n h
    have hxn : x ≠ n := h x (List.mem_cons_self x l1)
    rw [List.cons_append]
    unfold pyRemove
    rw [if_neg hxn, ih l2 n (fun y hy => h y (List.mem_cons_of_mem x hy))]
    rfl

/-- The inner scan ignores a leading block of new entries whose addresses all
differ from the current original's address. -/
theorem innerLoop_skip (o : FixedIp) (a : String) (ho : o.ip_address = some a) :
    ∀ (pre rest origs news prevs : List FixedIp),
      (∀ m ∈ pre, ∃ b, m.ip_address = some b ∧ b ≠ a) →
      innerLoop o (pre ++ rest) origs news prevs =
        innerLoop o rest origs news prevs := by
  intro pre
  induction pre with
  | nil => intro rest origs news prevs _; rfl
  | cons m pre ih =>
    intro rest origs news prevs hpre
    obtain ⟨b, hb, hba⟩ := hpre m (List.mem_cons_self m pre)
    have hm : ipMatch o m = .ok false := by
      unfold ipMatch
      rw [hb, ho]
      simp [Ne.symm hba]
    rw [List.cons_append]
    conv_lhs => unfold innerLoop
    rw [hm]
    exact ih rest origs news prevs
      (fun m' hm' => hpre m' (List.mem_cons_of_mem m hm'))

/-- The inner scan leaves the state unchanged when no new entry's address
equals the current original's address. -/
theorem innerLoop_no_match (o : FixedIp) (a : String)
    (ho : o.ip_address = some a) (snap origs news prevs : List FixedIp)
    (h : ∀ m ∈ snap, ∃ b, m.ip_address = some b ∧ b ≠ a) :
    innerLoop o snap origs news prevs = .ok (origs, news, prevs) := by
  have hs := innerLoop_skip o a ho snap [] origs news prevs h
  rw [List.append_nil] at hs
  rw [hs]
  rfl

/-- When exactly one new entry matches the current original's address, the
inner scan removes the original from its list, removes that new entry, and
appends the original to the retained list. -/
theorem innerLoop_one_match (o : FixedIp) (a : String)
    (ho : o.ip_address = some a) (l1 l2 : List FixedIp) (n : FixedIp)
    (hn : n.ip_address = some a)
    (h1 : ∀ m ∈ l1, ∃ b, m.ip_address = some b ∧ b ≠ a)
    (h2 : ∀ m ∈ l2, ∃ b, m.ip_address = some b ∧ b ≠ a)
    (origs prevs : List FixedIp) (hom : o ∈ origs) :
    innerLoop o (l1 ++ n :: l2) origs (l1 ++ n :: l2) prevs =
      .ok (origs.erase o, l1 ++ l2, prevs ++ [o]) := by
  rw [innerLoop_skip o a ho l1 (n :: l2) origs (l1 ++ n :: l2) prevs h1]
  have hmatch : ipMatch o n = .ok true := by
    unfold ipMatch
    rw [hn, ho]
    simp
  have hro : pyRemove origs o = .ok (origs.erase o) :=
    pyRemove_eq_erase origs o hom
  have hl1 : ∀ x ∈ l1, x ≠ n := by
    intro x hx hxn
    obtain ⟨b, hb, hba⟩ := h1 x hx
    rw [hxn, hn] at hb
    exact hba (Option.some.inj hb).symm
  have hrn : pyRemove (l1 ++ n :: l2) n = .ok (l1 ++ l2) :=
    pyRemove_middle l1 l2 n hl1
  conv_lhs => unfold innerLoop
  rw [hmatch, hro, hrn]
  exact innerLoop_no_match o a ho l2 (origs.erase o) (l1 ++ l2)
    (prevs ++ [o]) h2

/-- The outer loop of the diff, on lists with present, pairwise-distinct
addresses: the retained list gains exactly the originals whose address occurs
among the new entries (in original order) and the new list keeps exactly the
entries whose address matches no original. -/
theorem outerLoop_partition :
    ∀ (os origs news prevs : List FixedIp),
      (∀ o ∈ os, o ∈ origs) → origs.Nodup →
      (∀ o ∈ os, o.ip_address.isSome) →
      (os.map FixedIp.ip_address).Nodup →
      (∀ n ∈ news, n.ip_address.isSome) →
      (news.map FixedIp.ip_address).Nodup →
      ∃ origsF,
        outerLoop os origs news prevs =
          .ok (origsF,
            news.filter (fun n =>
              !(os.any (fun o => decide (o.ip_address = n.ip_address)))),
            prevs ++ os.filter (fun o =>
              news.any (fun n => decide (o.ip_address = n.ip_address)))) := by
  intro os
  induction os with
  | nil =>
    intro origs news prevs _ _ _ _ _ _
    refine ⟨origs, ?_⟩
    simp [outerLoop]
  | cons o rest ih =>
    intro origs news prevs hsub hnodupO hsomeOs hnodupOs hsomeN hnodupN
    obtain ⟨a, ha⟩ := Option.isSome_iff_exists.mp
      (hsomeOs o (List.mem_cons_self o rest))
    have hsomeRest : ∀ o' ∈ rest, o'.ip_address.isSome :=
      fun o' h => hsomeOs o' (List.mem_cons_of_mem o h)
    rw [List.map_cons] at hnodupOs
    have hnodupRest : (rest.map FixedIp.ip_address).Nodup :=
      (List.nodup_cons.mp hnodupOs).2
    have haNotRest : o.ip_address ∉ rest.map FixedIp.ip_address :=
      (List.nodup_cons.mp hnodupOs).1
    by_cases hmatch : ∃ n ∈ news, n.ip_address = some a
    · obtain ⟨n, hnmem, hna⟩ := hmatch
      obtain ⟨l1, l2, hsplit⟩ := List.append_of_mem hnmem
      subst hsplit
      have hnodupN' := hnodupN
      rw [List.map_append, List.map_cons] at hnodupN'
      have hdis := List.nodup_append.mp hnodupN'
      have hnotl1 : n.ip_address ∉ l1.map FixedIp.ip_address :=
        fun hmem => hdis.2.2 hmem (List.mem_cons_self _ _)
      have hnotl2 : n.ip_address ∉ l2.map FixedIp.ip_address :=
        (List.nodup_cons.mp hdis.2.1).1
      have h1 : ∀ m ∈ l1, ∃ b, m.ip_address = some b ∧ b ≠ a := by
        intro m hm
        obtain ⟨b, hb⟩ := Option.isSome_iff_exists.mp
          (hsomeN m (List.mem_append_left _ hm))
        refine ⟨b, hb, fun hba => hnotl1 ?_⟩
        rw [hna, ← hba, ← hb]
        exact List.mem_map_of_mem _ hm
      have h2 : ∀ m ∈ l2, ∃ b, m.ip_address = some b ∧ b ≠ a := by
        intro m hm
        obtain ⟨b, hb⟩ := Option.isSome_iff_exists.mp
          (hsomeN m (List.mem_append_right _ (List.mem_cons_of_mem n hm)))
        refine ⟨b, hb, fun hba => hnotl2 ?_⟩
        rw [hna, ← hba, ← hb]
        exact List.mem_map_of_mem _ hm
      have hom : o ∈ origs := hsub o (List.mem_cons_self o rest)
      have hinner := innerLoop_one_match o a ha l1 l2 n hna h1 h2 origs
        prevs hom
      have hstep : outerLoop (o :: rest) origs (l1 ++ n :: l2) prevs =
          outerLoop rest (origs.erase o) (l1 ++ l2) (prevs ++ [o]) := by
        conv_lhs => unfold outerLoop
        rw [hinner]
      have hsub' : ∀ o' ∈ rest, o' ∈ origs.erase o := by
        intro o' ho'
        have hne : o' ≠ o := by
          intro he
          apply haNotRest
          rw [← he]
          exact List.mem_map_of_mem _ ho'
        exact (List.mem_erase_of_ne hne).mpr
          (hsub o' (List.mem_cons_of_mem o ho'))
      have hsomeN2 : ∀ m ∈ l1 ++ l2, m.ip_address.isSome := by
        intro m hm
        rcases List.mem_append.mp hm with h | h
        · exact hsomeN m (List.mem_append_left _ h)
        · exact hsomeN m (List.mem_append_right _ (List.mem_cons_of_mem n h))
      have hnodupN2 : ((l1 ++ l2).map FixedIp.ip_address).Nodup := by
        rw [List.map_append]
        exact List.Nodup.sublist
          (List.Sublist.append_left (List.sublist_cons_self _ _) _) hnodupN'
      obtain ⟨origsF, hrec⟩ := ih (origs.erase o) (l1 ++ l2) (prevs ++ [o])
        hsub' (List.Nodup.erase o hnodupO) hsomeRest hnodupRest hsomeN2
        hnodupN2
      refine ⟨origsF, ?_⟩
      rw [hstep, hrec]
      have h12 : ∀ m ∈ l1 ++ l2, ∃ b, m.ip_address = some b ∧ b ≠ a := by
        intro m hm
        rcases List.mem_append.mp hm with h | h
        · exact h1 m h
        · exact h2 m h
      have hpoint : ∀ m ∈ l1 ++ l2,
          (!((o :: rest).any
            (fun o' => decide (o'.ip_address = m.ip_address)))) =
          (!(rest.any (fun o' => decide (o'.ip_address = m.ip_address)))) := by
        intro m hm
        obtain ⟨b, hb, hba⟩ := h12 m hm
        have hd : decide (o.ip_address = m.ip_address) = false := by
          apply decide_eq_false
          rw [ha, hb]
          intro hcontra
          exact hba (Option.some.inj hcontra).symm
        simp [List.any_cons, hd]
      have hfN : (l1 ++ n :: l2).filter (fun m =>
            !((o :: rest).any
              (fun o' => decide (o'.ip_address = m.ip_address)))) =
          (l1 ++ l2).filter (fun m =>
            !(rest.any (fun o' => decide (o'.ip_address = m.ip_address)))) := by
        rw [List.filter_append, List.filter_cons,
          if_neg (by simp [ha, hna]), ← List.filter_append]
        exact List.filter_congr hpoint
      have hqo : (l1 ++ n :: l2).any
          (fun m => decide (o.ip_address = m.ip_address)) = true := by
        rw [List.any_eq_true]
        exact ⟨n, List.mem_append_right _ (List.mem_cons_self n l2),
          by simp [ha, hna]⟩
      have hqpoint : ∀ o' ∈ rest,
          ((l1 ++ n :: l2).any
            (fun m => decide (o'.ip_address = m.ip_address))) =
          ((l1 ++ l2).any
            (fun m => decide (o'.ip_address = m.ip_address))) := by
        intro o' ho'
        have hne : decide (o'.ip_address = n.ip_address) = false := by
          apply decide_eq_false
          rw [hna]
          intro he
          apply haNotRest
          rw [ha, ← he]
          exact List.mem_map_of_mem _ ho'
        simp [List.any_append, List.any_cons, hne]
      have hfP : prevs ++ (o :: rest).filter (fun o' =>
            (l1 ++ n :: l2).any
              (fun m => decide (o'.ip_address = m.ip_address))) =
          (prevs ++ [o]) ++ rest.filter (fun o' =>
            (l1 ++ l2).any
              (fun m => decide (o'.ip_address = m.ip_address))) := by
        rw [List.filter_cons, if_pos hqo, List.filter_congr hqpoint,
          List.append_assoc, List.singleton_append]
      rw [hfN, hfP]
    · push_neg at hmatch
      have hnomatch : ∀ m ∈ news, ∃ b, m.ip_address = some b ∧ b ≠ a := by
        intro m hm
        obtain ⟨b, hb⟩ := Option.isSome_iff_exists.mp (hsomeN m hm)
        exact ⟨b, hb, fun hba => hmatch m hm (hba ▸ hb)⟩
      have hinner := innerLoop_no_match o a ha news origs news prevs hnomatch
      have hstep : outerLoop (o :: rest) origs news prevs =
          outerLoop rest origs news prevs := by
        conv_lhs => unfold outerLoop
        rw [hinner]
      obtain ⟨origsF, hrec⟩ := ih origs news prevs
        (fun o' h => hsub o' (List.mem_cons_of_mem o h)) hnodupO hsomeRest
        hnodupRest hsomeN hnodupN
      refine ⟨origsF, ?_⟩
      rw [hstep, hrec]
      have hpoint : ∀ m ∈ news,
          (!((o :: rest).any
            (fun o' => decide (o'.ip_address = m.ip_address)))) =
          (!(rest.any (fun o' => decide (o'.ip_address = m.ip_address)))) := by
        intro m hm
        have hd : decide (o.ip_address = m.ip_address) = false := by
          apply decide_eq_false
          intro h
          rw [ha] at h
          exact hmatch m hm h.symm
        simp [List.any_cons, hd]
      have hqo : news.any
          (fun m => decide (o.ip_address = m.ip_address)) = false := by
        rw [List.any_eq_false]
        intro m hm
        simp only [decide_eq_true_eq]
        intro h
        rw [ha] at h
        exact hmatch m hm h.symm
      rw [List.filter_congr hpoint, List.filter_cons, if_neg (by simp [hqo])]

/-- C1: for a port update whose payload contains `fixed_ips`, when the
original and new lists each carry present, pairwise-distinct `ip_address`
values (and the new list is within the configured maximum), the diff returns
exactly the genuinely new entries as additions and the originals whose
address matches some new entry — in original order — as retained, and
`update_port` replaces the payload's `fixed_ips` by retained ++ added. -/
theorem update_port_fixed_ips_partition (max_fixed_ips_per_port : Nat)
    (original : Port) (port : PortPayload) (new_ips : List FixedIp)
    (hf : port.fixed_ips = some new_ips)
    (hlen : new_ips.length ≤ max_fixed_ips_per_port)
    (hsomeO : ∀ o ∈ original.fixed_ips, o.ip_address.isSome)
    (hnodupO : (original.fixed_ips.map FixedIp.ip_address).Nodup)
    (hsomeN : ∀ n ∈ new_ips, n.ip_address.isSome)
    (hnodupN : (new_ips.map FixedIp.ip_address).Nodup) :
    (∃ origsF,
      update_ips_for_port max_fixed_ips_per_port original.fixed_ips
          new_ips =
        .ok (new_ips.filter (fun n => !(original.fixed_ips.any
              (fun o => decide (o.ip_address = n.ip_address)))),
             original.fixed_ips.filter (fun o => new_ips.any
              (fun n => decide (o.ip_address = n.ip_address))),
             origsF)) ∧
    (∃ p' o',
      update_port max_fixed_ips_per_port original port = .ok (p', o') ∧
      p'.fixed_ips = some
        (original.fixed_ips.filter (fun o => new_ips.any
          (fun n => decide (o.ip_address = n.ip_address))) ++
         new_ips.filter (fun n => !(original.fixed_ips.any
          (fun o => decide (o.ip_address = n.ip_address)))))) := by
  obtain ⟨origsF, houter⟩ := outerLoop_partition original.fixed_ips
    original.fixed_ips new_ips [] (fun _ h => h)
    (List.Nodup.of_map _ hnodupO) hsomeO hnodupO hsomeN hnodupN
  have hdiff : update_ips_for_port max_fixed_ips_per_port
      original.fixed_ips new_ips =
      .ok (new_ips.filter (fun n => !(original.fixed_ips.any
            (fun o => decide (o.ip_address = n.ip_address)))),
           original.fixed_ips.filter (fun o => new_ips.any
            (fun n => decide (o.ip_address = n.ip_address))),
           origsF) := by
    unfold update_ips_for_port
    rw [if_neg (by omega), houter, List.nil_append]
  refine ⟨⟨origsF, hdiff⟩, ?_⟩
  simp only [update_port, hf, hdiff]
  cases hb : port.binding_host_id with
  | none => exact ⟨_, _, rfl, rfl⟩
  | some h => exact ⟨_, _, rfl, rfl⟩

/-- Witness for C1 at the claim's example: original addresses 10.0.0.1 and
10.0.0.2, new addresses 10.0.0.2 and 10.0.0.3; the final `fixed_ips` is the
retained original 10.0.0.2 entry followed by the added 10.0.0.3 entry. -/
theorem update_port_fixed_ips_partition_witness :
    ∃ p' o', update_port 4
        ⟨"net1", [⟨some "10.0.0.1", none⟩, ⟨some "10.0.0.2", some "orig"⟩],
          none, 0⟩
        ⟨some [⟨some "10.0.0.2", none⟩, ⟨some "10.0.0.3", none⟩], none, 0⟩ =
        .ok (p', o') ∧
      p'.fixed_ips =
        some [⟨some "10.0.0.2", some "orig"⟩, ⟨some "10.0.0.3", none⟩] := by
  obtain ⟨p', o', h1, h2⟩ := (update_port_fixed_ips_partition 4
    ⟨"net1", [⟨some "10.0.0.1", none⟩, ⟨some "10.0.0.2", some "orig"⟩],
      none, 0⟩
    ⟨some [⟨some "10.0.0.2", none⟩, ⟨some "10.0.0.3", none⟩], none, 0⟩
    [⟨some "10.0.0.2", none⟩, ⟨some "10.0.0.3", none⟩] rfl (by decide)
    (by decide) (by decide) (by decide) (by decide)).2
  exact ⟨p', o', h1, by rw [h2]; rfl⟩

/-- C10: when the new fixed-IP list contains two entries with the same
address as a single original, the inner scan matches twice; the second match
attempts `original_ips.remove` on an already-removed element and raises a
bare `ValueError`, which is distinct from every `InvalidInput`. -/
theorem update_ips_duplicate_new_ip_value_error :
    update_ips_for_port 4
        [⟨some "10.0.0.1", some "sub0"⟩]
        [⟨some "10.0.0.1", some "sub1"⟩, ⟨some "10.0.0.1", some "sub2"⟩] =
      .error .valueError ∧
    ∀ msg, DiffError.valueError ≠ .invalidInput msg :=
  ⟨rfl, fun msg h => by cases h⟩

end ContrailDriverBase
